import Mathlib

/-!
Shallow embedding of the sails-elasticsearch adapter (src/lib/adapter.js and
the Connection module).  The adapter file holds two variants of the code: the
primary one (with `smartTermOrTermsQuery`, nested-path handling, `mget`, ...)
and a secondary, older one appended after it (plain `term` filters only, no
`match_all` branch, a different `restrictAttributes`).  Definitions suffixed
`V2` embed the secondary variant; unsuffixed definitions embed the primary
variant.
-/

set_option maxHeartbeats 1000000

namespace SailsES

/-- Json-like values, modelling the plain javascript objects the adapter
builds and consumes.  Numbers are modelled as integers; the adapter never
computes with them, it only moves them around. -/
inductive JVal : Type where
  | null : JVal
  | bool (b : Bool) : JVal
  | num (n : Int) : JVal
  | str (s : String) : JVal
  | arr (elems : List JVal) : JVal
  | obj (fields : List (String × JVal)) : JVal

/-- Javascript `Array.isArray`. -/
def JVal.isArr : JVal → Bool
  | .arr _ => true
  | _ => false

/-- A scalar (primitive) javascript value: not an array and not an object. -/
def JVal.isScalar : JVal → Bool
  | .null => true
  | .bool _ => true
  | .num _ => true
  | .str _ => true
  | .arr _ => false
  | .obj _ => false

/-- Javascript truthiness of a value. -/
def JVal.truthy : JVal → Bool
  | .null => false
  | .bool b => b
  | .num n => n != 0
  | .str s => s != ""
  | .arr _ => true
  | .obj _ => true

mutual

/-- Number of object properties named `k` anywhere inside a json value.
Used to count `term` / `terms` / `match_all` clauses in a query document. -/
def countKey (k : String) : JVal → Nat
  | .obj fields => countKeyFields k fields
  | .arr elems => countKeyList k elems
  | _ => 0

/-- `countKey` over the elements of a json array. -/
def countKeyList (k : String) : List JVal → Nat
  | [] => 0
  | v :: rest => countKey k v + countKeyList k rest

/-- `countKey` over the fields of a json object. -/
def countKeyFields (k : String) : List (String × JVal) → Nat
  | [] => 0
  | kv :: rest => (if kv.1 = k then 1 else 0) + countKey k kv.2 + countKeyFields k rest

end

/-- Property read `object[k]` on a javascript object modelled as an ordered
association list: `none` models `undefined`. -/
def lookupKey {α : Type} (k : String) : List (String × α) → Option α
  | [] => none
  | kv :: rest => if kv.1 = k then some kv.2 else lookupKey k rest

/-- Property write `object[k] = v`: overwrites the property in place when it
exists, otherwise appends it (javascript keeps insertion order). -/
def setKey {α : Type} (k : String) (v : α) : List (String × α) → List (String × α)
  | [] => [(k, v)]
  | kv :: rest => if kv.1 = k then (k, v) :: rest else kv :: setKey k v rest

/-- Property write restricted to an existing property (used where the code has
just read the property, so it is known to be present). -/
def updateKey {α : Type} (k : String) (v : α) : List (String × α) → List (String × α)
  | [] => []
  | kv :: rest => if kv.1 = k then (k, v) :: rest else kv :: updateKey k v rest

/-!  The query translator of the primary variant (`find`). -/

/-- Helper for `splitDots`: `acc` holds the characters of the current segment
in reverse. -/
def splitDotsAux (acc : List Char) : List Char → List String
  | [] => [String.mk acc.reverse]
  | ch :: rest =>
    if ch = '.' then String.mk acc.reverse :: splitDotsAux [] rest
    else splitDotsAux (ch :: acc) rest

/-- Javascript `field.split('.')`: the list of dot-separated segments, never
empty (the empty string splits to `[""]`, consecutive dots give empty
segments). -/
def splitDots (s : String) : List String :=
  splitDotsAux [] s.toList

/-- `smartTermOrTermsQuery` (primary variant): a `terms` filter for an array
comparison value, a `term` filter otherwise. -/
def smartTermOrTermsQuery (field : String) (value : JVal) : JVal :=
  if value.isArr then
    .obj [("terms", .obj [(field, value)])]
  else
    .obj [("term", .obj [(field, value)])]

/-- Path accumulation step of the nested-query reduce in `find`:
`path = result[0] ? result[0] + '.' + value : value`. -/
def joinPath (pre p : String) : String :=
  if pre = "" then p else pre ++ "." ++ p

/-- The reduce in `find` that builds the nested query for a dotted field path.
`pre` is the accumulated path (`result[0]`), `tf` the term/terms filter, and
`p :: rest` the remaining (already last-popped) path segments.  At the last
segment the query becomes `{bool: {filter: termFilter}}`; before it, the query
is the next `nested` object. -/
def nestedWrap (pre : String) (tf : JVal) : String → List String → JVal
  | p, [] =>
    .obj [("nested", .obj [("path", .str (joinPath pre p)),
                           ("query", .obj [("bool", .obj [("filter", tf)])])])]
  | p, q :: rest =>
    .obj [("nested", .obj [("path", .str (joinPath pre p)),
                           ("query", nestedWrap (joinPath pre p) tf q rest)])]

/-- Translation of one `where` entry in the primary `find`: a plain
term/terms filter for a one-segment field, otherwise the nested query built
from the field parts with the last part popped, with the term/terms filter on
the full field name at the innermost level. -/
def whereEntryToFilter (field : String) (v : JVal) : JVal :=
  let fieldParts := splitDots field
  if fieldParts.length = 1 then
    smartTermOrTermsQuery field v
  else
    match fieldParts.dropLast with
    | [] => smartTermOrTermsQuery field v
    | p :: rest => nestedWrap "" (smartTermOrTermsQuery field v) p rest

/-- `body.query` built by the primary `find`: `match_all` when `options.where`
is absent, otherwise a `bool` query whose `filter` array holds one clause per
`where` entry, in iteration order. -/
def findQuery (whereC : Option (List (String × JVal))) : JVal :=
  match whereC with
  | none => .obj [("match_all", .obj [])]
  | some w => .obj [("bool", .obj [("filter", .arr (w.map fun fv => whereEntryToFilter fv.1 fv.2))])]

/-- `body.query` built by the secondary variant's `find`: always a `bool`
query; every `where` entry becomes a `term` clause holding the raw value
(there is no array / `terms` branch and no nested-path handling), and an
absent `where` leaves the filter array empty. -/
def findQueryV2 (whereC : Option (List (String × JVal))) : JVal :=
  .obj [("bool", .obj [("filter", .arr
    (match whereC with
     | none => []
     | some w => w.map fun fv => .obj [("term", .obj [(fv.1, fv.2)])]))])]

/-!  Specification-side descriptions used to state the nested-path claim. -/

/-- Wrapping of a terminal filter in one `nested` clause per given path,
outermost path first; the innermost level carries `{bool: {filter: tf}}`.
This is the shape the specification describes for dotted field paths. -/
def wrapNested (tf : JVal) : List String → JVal
  | [] => .obj [("bool", .obj [("filter", tf)])]
  | p :: rest => .obj [("nested", .obj [("path", .str p), ("query", wrapNested tf rest)])]

/-- Cumulative dot-joined prefixes of a segment list:
`dotPrefixes [a, b, c] = [a, a.b, a.b.c]`. -/
def dotPrefixes : List String → List String
  | [] => []
  | p :: rest => p :: (dotPrefixes rest).map (fun s => p ++ "." ++ s)

/-- Paths produced by the reduce, as a list (outer to inner). -/
def cumulative (pre p : String) : List String → List String
  | [] => [joinPath pre p]
  | q :: rest => joinPath pre p :: cumulative (joinPath pre p) q rest

/-!  The response mapper. -/

/-- The parts of an Elasticsearch hit (or of an `mget` doc that was found)
that the adapter reads: `_id` and `_source`. -/
structure EsHit : Type where
  id : String
  source : List (String × JVal)

/-- `hitToModel` (primary variant): the record is the hit's `_source` with the
hit's `_id` written into it under the key `_id`. -/
def hitToModel (hit : EsHit) : JVal :=
  .obj (setKey "_id" (.str hit.id) hit.source)

/-- The parts of a search response that `getHits` reads: `hits.total` and
`hits.hits`. -/
structure SearchResponse : Type where
  total : Nat
  hits : List EsHit

/-- `getHits` (primary variant): an empty result list when `hits.total` is 0,
otherwise one record per hit, in order (the `async.eachLimit` iterator is
synchronous, so the pushes happen in input order).  The callback is always
invoked, with this list. -/
def getHits (resp : SearchResponse) : List JVal :=
  if resp.total = 0 then []
  else resp.hits.map hitToModel

/-- `getHits` of the secondary variant.  When `hits.total` is 0 it executes
`return results`, so the callback is never invoked: that outcome is modelled
as `none`.  Otherwise each hit's `_source` gets the `_id` written under the
key `id` (not `_id`) and the callback receives the list, modelled as `some`. -/
def getHitsV2 (resp : SearchResponse) : Option (List JVal) :=
  if resp.total = 0 then none
  else some (resp.hits.map fun h => .obj (setKey "id" (.str h.id) h.source))

/-- One doc of an `mget` response: the `found` flag plus the hit fields. -/
structure EsDoc : Type where
  found : Bool
  id : String
  source : List (String × JVal)

/-- The hit part of an `mget` doc. -/
def EsDoc.toHit (d : EsDoc) : EsHit :=
  ⟨d.id, d.source⟩

/-- `getFound`: for each doc of the response, in order, the record when the
doc was found and `false` otherwise (the `async.eachLimit` iterator is
synchronous, so pushes happen in input order). -/
def getFound (docs : List EsDoc) : List JVal :=
  docs.map fun d => if d.found then hitToModel d.toHit else .bool false

/-- Model of the Elasticsearch client's `mget` contract, which is delegated to
the external client library: the response carries one doc per requested id, in
request order, found when the store holds a document for that id. -/
def clientMget (store : String → Option (List (String × JVal))) (ids : List String) : List EsDoc :=
  ids.map fun i =>
    match store i with
    | some src => ⟨true, i, src⟩
    | none => ⟨false, i, []⟩

/-- The result the adapter's `mget` passes to its callback: `getFound` applied
to the client's response docs. -/
def mgetResults (store : String → Option (List (String × JVal))) (ids : List String) : List JVal :=
  getFound (clientMget store ids)

/-!  The attribute restrictor. -/

/-- The attribute metadata the restrictor reads from the model definition. -/
structure AttrDef : Type where
  type : Option String
  restrictAttributes : Option (List String)
  skipAttributes : Option (List String)

/-- `restrictObjectAttributes` (primary variant): delete every property whose
key is not in the restricted-fields list.  On values that are not objects,
`Object.keys` enumerates no deletable model fields, so they are returned
unchanged. -/
def restrictObjectAttributes (restrictedFields : List String) : JVal → JVal
  | .obj fields => .obj (fields.filter fun kv => restrictedFields.contains kv.1)
  | v => v

/-- The restrict phase of the primary variant applied to an attribute value:
element-wise over an array value, directly otherwise. -/
def restrictValue (restrictedFields : List String) : JVal → JVal
  | .arr elems => .arr (elems.map (restrictObjectAttributes restrictedFields))
  | v => restrictObjectAttributes restrictedFields v

/-- The skip phase (both variants): delete every top-level property whose key
is in the skip list.  Non-object values are returned unchanged. -/
def skipKeys (sk : List String) : JVal → JVal
  | .obj fields => .obj (fields.filter fun kv => !sk.contains kv.1)
  | v => v

/-- The restrict phase of the primary variant for one attribute: it runs only
when a restrict list is configured and the attribute's value is truthy. -/
def restrictPhase (attrName : String) (ad : AttrDef) (values : List (String × JVal)) :
    List (String × JVal) :=
  match ad.restrictAttributes, lookupKey attrName values with
  | some rf, some v => if v.truthy then updateKey attrName (restrictValue rf v) values else values
  | _, _ => values

/-- The skip phase for one attribute: it runs only when a skip list is
configured and the attribute's value is truthy, reading the value as it is
after the restrict phase. -/
def skipPhase (attrName : String) (ad : AttrDef) (values : List (String × JVal)) :
    List (String × JVal) :=
  match ad.skipAttributes, lookupKey attrName values with
  | some sk, some v => if v.truthy then updateKey attrName (skipKeys sk v) values else values
  | _, _ => values

/-- One iteration of the primary `restrictAttributes` loop, for the attribute
named `attrName` with metadata `ad`: nothing happens unless the type is
`json`; the restrict phase runs first, then the skip phase is checked
independently. -/
def restrictAttrStep (attrName : String) (ad : AttrDef) (values : List (String × JVal)) :
    List (String × JVal) :=
  if ad.type = some "json" then
    skipPhase attrName ad (restrictPhase attrName ad values)
  else values

/-- `restrictAttributes` (primary variant): the loop over the model's
attributes, threading the (in javascript, in-place mutated) values object,
which is then returned. -/
def restrictAttributes (attributes : List (String × AttrDef)) (values : List (String × JVal)) :
    List (String × JVal) :=
  attributes.foldl (fun vals a => restrictAttrStep a.1 a.2 vals) values

/-- The restrict phase of the secondary variant applied to an attribute value.
Its inner loop deletes the key `e` whenever some entry of the restrict list
differs from `e`, so a key survives only when every entry of the list equals
it.  There is no element-wise array handling in this variant. -/
def restrictValueV2 (restrictedFields : List String) : JVal → JVal
  | .obj fields => .obj (fields.filter fun kv => restrictedFields.all fun r => r = kv.1)
  | v => v

/-- One iteration of the secondary `restrictAttributes` loop.  This variant
reads `Object.keys(values[attribute])` without first checking that the value
exists, which throws when the attribute is absent from the values: that crash
is modelled as `none`. -/
def restrictAttrStepV2 (attrName : String) (ad : AttrDef) (values : List (String × JVal)) :
    Option (List (String × JVal)) :=
  if ad.type = some "json" then do
    let v1 ←
      match ad.restrictAttributes with
      | none => pure values
      | some rf =>
        match lookupKey attrName values with
        | none => none
        | some v => pure (updateKey attrName (restrictValueV2 rf v) values)
    match ad.skipAttributes with
    | none => pure v1
    | some sk =>
      match lookupKey attrName v1 with
      | none => none
      | some v => pure (updateKey attrName (skipKeys sk v) v1)
  else pure values

/-- `restrictAttributes` of the secondary variant. -/
def restrictAttributesV2 (attributes : List (String × AttrDef)) (values : List (String × JVal)) :
    Option (List (String × JVal)) :=
  attributes.foldlM (fun vals a => restrictAttrStepV2 a.1 a.2 vals) values

/-!  The connection registry and the Connection module. -/

/-- An error surfaced by the external Elasticsearch client. -/
structure EsError : Type where
  message : String

/-- An opaque handle to the external Elasticsearch client object. -/
structure EsClient : Type where
  handle : Nat

/-- The parts of a connection config the adapter reads: the identity (`none`
models a falsy identity, i.e. missing or empty) and the optional configured
index name. -/
structure ConnConfig : Type where
  identity : Option String
  index : Option String

/-- The parts of a collection's metadata the adapter reads. -/
structure CollectionMeta : Type where
  adapterIdentity : String
  primaryKey : String
  attributes : List (String × AttrDef)

/-- The `Connection` object of the Connection module: it keeps the config and,
once connected, the client. -/
structure Connection : Type where
  config : ConnConfig
  connection : EsClient

/-- `new Connection(config, cb)`: creating the client is delegated to the
external library, whose outcome is the `openResult` parameter; on success the
`Connection` object holding the client is passed to the callback, on error the
error is passed through. -/
def newConnection (config : ConnConfig) (openResult : Except EsError EsClient) :
    Except EsError Connection :=
  match openResult with
  | .error e => .error e
  | .ok client => .ok ⟨config, client⟩

/-- One entry of the process-wide `connections` registry: the raw config, the
collections map, and the connection slot, which stays empty until the
asynchronous open resolves. -/
structure RegEntry : Type where
  config : ConnConfig
  collections : List (String × CollectionMeta)
  connection : Option Connection

/-- The process-wide `connections` registry. -/
abbrev Registry : Type := List (String × RegEntry)

/-- What `registerConnection` passes to its callback. -/
inductive RegisterOutcome : Type where
  | errMissingIdentity : RegisterOutcome
  | errAlreadyRegistered : RegisterOutcome
  | errClient (e : EsError) : RegisterOutcome
  | ok (conn : Connection) : RegisterOutcome

/-- `registerConnection` (both variants have the same code): error when the
identity is falsy or already registered, leaving the registry untouched;
otherwise the entry (config and collections, empty connection slot) is stored
first, and only then the client handle is opened.  On open failure the error
is passed to the callback and the stored entry stays; on success the
`Connection` object is written into the entry's connection slot. -/
def registerConnection (reg : Registry) (connection : ConnConfig)
    (collections : Option (List (String × CollectionMeta)))
    (openResult : Except EsError EsClient) : Registry × RegisterOutcome :=
  match connection.identity with
  | none => (reg, .errMissingIdentity)
  | some ident =>
    if (lookupKey ident reg).isSome then
      (reg, .errAlreadyRegistered)
    else
      let reg1 := setKey ident ⟨connection, collections.getD [], none⟩ reg
      match newConnection connection openResult with
      | .error e => (reg1, .errClient e)
      | .ok conn => (setKey ident ⟨connection, collections.getD [], some conn⟩ reg1, .ok conn)

/-- `getIndex`: the explicit index argument when defined; otherwise the
registered connection's configured index when defined; otherwise the
collection name.  Reading the config of an unregistered connection would throw
in javascript, modelled as `none`. -/
def getIndex (reg : Registry) (connectionName collectionName : String) (index : Option String) :
    Option String :=
  match index with
  | some i => some i
  | none =>
    match lookupKey connectionName reg with
    | none => none
    | some entry =>
      match entry.config.index with
      | some configIndex => some configIndex
      | none => some collectionName

/-!  The `update` and `destroy` operations (primary variant), modelled with an
explicit trace of the requests issued to the client. -/

/-- A request issued to the external client. -/
inductive ClientCall : Type where
  | callUpdate (index type : String) (id : JVal) (doc : List (String × JVal)) : ClientCall
  | callGet (index type : String) (id : JVal) : ClientCall
  | callDelete (index type : String) (id : JVal) : ClientCall

/-- The part of the client's update response the adapter reads: `_id`. -/
structure EsWriteResp : Type where
  id : JVal

/-- An error passed to an operation's callback. -/
inductive OpError : Type where
  | missingPrimaryKey : OpError
  | client (e : EsError) : OpError

/-- `update` (primary variant).  The values are first restricted; then, when
`options.where[primaryKeyField]` is loosely equal to `undefined` (absent or
null), the callback receives an error with no request issued.  Otherwise
`client.update` is issued with the restricted values as the doc, and on
success `client.get` is issued with the `_id` of the update response, whose
result becomes the record passed to the callback. -/
def update (indexName typeName primaryKeyField : String)
    (attributes : List (String × AttrDef))
    (whereC : List (String × JVal)) (values : List (String × JVal))
    (updateResp : Except EsError EsWriteResp)
    (getResp : Except EsError EsHit) :
    List ClientCall × Except OpError JVal :=
  let restrictedValues := restrictAttributes attributes values
  match lookupKey primaryKeyField whereC with
  | none => ([], .error .missingPrimaryKey)
  | some .null => ([], .error .missingPrimaryKey)
  | some pk =>
    let c1 := ClientCall.callUpdate indexName typeName pk restrictedValues
    match updateResp with
    | .error e => ([c1], .error (.client e))
    | .ok res =>
      let c2 := ClientCall.callGet indexName typeName res.id
      match getResp with
      | .error e => ([c1, c2], .error (.client e))
      | .ok hit => ([c1, c2], .ok (hitToModel hit))

/-- `destroy` (primary variant).  When `options.where.primaryKey` is loosely
equal to `undefined`, the callback receives an error with no request issued;
otherwise `client.delete` is issued with that value as the id. -/
def destroy (indexName typeName : String) (whereC : List (String × JVal))
    (deleteResp : Except EsError Unit) : List ClientCall × Except OpError Unit :=
  match lookupKey "primaryKey" whereC with
  | none => ([], .error .missingPrimaryKey)
  | some .null => ([], .error .missingPrimaryKey)
  | some pk =>
    ([.callDelete indexName typeName pk],
     match deleteResp with
     | .error e => .error (.client e)
     | .ok _ => .ok ())

/-!  Helper lemmas. -/

theorem lookupKey_setKey_self {α : Type} (k : String) (v : α) (l : List (String × α)) :
    lookupKey k (setKey k v l) = some v := by
  induction l with
  | nil => simp [setKey, lookupKey]
  | cons kv rest ih =>
    by_cases h : kv.1 = k <;> simp [setKey, lookupKey, h, ih]

theorem updateKey_map_fst {α : Type} (k : String) (v : α) (l : List (String × α)) :
    (updateKey k v l).map Prod.fst = l.map Prod.fst := by
  induction l with
  | nil => rfl
  | cons kv rest ih =>
    by_cases h : kv.1 = k <;> simp [updateKey, h, ih]

theorem countKey_scalar (k : String) (v : JVal) (h : v.isScalar = true) :
    countKey k v = 0 := by
  cases v <;> simp_all [JVal.isScalar, countKey]

/-- A string holding a dot between two parts is never empty. -/
theorem joined_ne_empty (pre p : String) : pre ++ "." ++ p ≠ "" := by
  intro h
  have hd := congrArg String.data h
  simp [String.data_append] at hd

theorem nestedWrap_eq_wrapNested (tf : JVal) (rest : List String) (pre p : String) :
    nestedWrap pre tf p rest = wrapNested tf (cumulative pre p rest) := by
  induction rest generalizing pre p with
  | nil => simp [nestedWrap, cumulative, wrapNested]
  | cons q rest ih => simp [nestedWrap, cumulative, wrapNested, ih]

theorem str_append_assoc (a b c : String) : a ++ b ++ c = a ++ (b ++ c) := by
  apply String.ext
  simp [String.data_append, List.append_assoc]

theorem cumulative_map_dotPrefixes (rest : List String) :
    ∀ pre p : String, pre ≠ "" →
      cumulative pre p rest = (dotPrefixes (p :: rest)).map (fun s => pre ++ "." ++ s) := by
  induction rest with
  | nil =>
    intro pre p hpre
    simp [cumulative, dotPrefixes, joinPath, hpre]
  | cons q rest ih =>
    intro pre p hpre
    have hne : pre ++ "." ++ p ≠ "" := joined_ne_empty pre p
    show joinPath pre p :: cumulative (joinPath pre p) q rest = _
    rw [show joinPath pre p = pre ++ "." ++ p from if_neg hpre, ih (pre ++ "." ++ p) q hne]
    show _ = (p :: (dotPrefixes (q :: rest)).map fun s => p ++ "." ++ s).map fun s => pre ++ "." ++ s
    rw [List.map_cons, List.map_map]
    refine congrArg _ (List.map_congr_left fun s _ => ?_)
    simp [Function.comp, str_append_assoc]

theorem cumulative_eq_dotPrefixes (rest : List String) (p : String) (hp : p ≠ "") :
    cumulative "" p rest = dotPrefixes (p :: rest) := by
  cases rest with
  | nil => simp [cumulative, dotPrefixes, joinPath]
  | cons q rest =>
    show joinPath "" p :: cumulative (joinPath "" p) q rest = _
    rw [show joinPath "" p = p from if_pos rfl, cumulative_map_dotPrefixes rest p q hp]
    rfl

theorem dotPrefixes_length (l : List String) : (dotPrefixes l).length = l.length := by
  induction l with
  | nil => rfl
  | cons p rest ih => simp [dotPrefixes, ih]

theorem countKey_nestedWrap (k : String) (tf : JVal) (rest : List String) (pre p : String)
    (h1 : ("nested" : String) ≠ k) (h2 : ("path" : String) ≠ k) (h3 : ("query" : String) ≠ k)
    (h4 : ("bool" : String) ≠ k) (h5 : ("filter" : String) ≠ k) :
    countKey k (nestedWrap pre tf p rest) = countKey k tf := by
  induction rest generalizing pre p with
  | nil => simp [nestedWrap, countKey, countKeyFields, countKeyList, h1, h2, h3, h4, h5]
  | cons q rest ih => simp [nestedWrap, countKey, countKeyFields, countKeyList, h1, h2, h3, ih]

theorem countKey_whereEntry (k field : String) (v : JVal)
    (h1 : ("nested" : String) ≠ k) (h2 : ("path" : String) ≠ k) (h3 : ("query" : String) ≠ k)
    (h4 : ("bool" : String) ≠ k) (h5 : ("filter" : String) ≠ k) :
    countKey k (whereEntryToFilter field v) = countKey k (smartTermOrTermsQuery field v) := by
  show countKey k
      (if (splitDots field).length = 1 then smartTermOrTermsQuery field v
       else
        match (splitDots field).dropLast with
        | [] => smartTermOrTermsQuery field v
        | p :: rest => nestedWrap "" (smartTermOrTermsQuery field v) p rest) = _
  by_cases hlen : (splitDots field).length = 1
  · rw [if_pos hlen]
  · rw [if_neg hlen]
    cases hdl : (splitDots field).dropLast with
    | nil => rfl
    | cons p rest => exact countKey_nestedWrap k _ rest "" p h1 h2 h3 h4 h5

theorem countKey_smart_term_one (field : String) (v : JVal) (hv : v.isScalar = true)
    (hf : field ≠ "term") :
    countKey "term" (smartTermOrTermsQuery field v) = 1 := by
  have hva : v.isArr = false := by cases v <;> simp_all [JVal.isScalar, JVal.isArr]
  simp [smartTermOrTermsQuery, hva, countKey, countKeyFields, countKeyList, hf,
    countKey_scalar _ _ hv]

theorem countKey_smart_terms_zero (field : String) (v : JVal) (hv : v.isScalar = true)
    (hf : field ≠ "terms") :
    countKey "terms" (smartTermOrTermsQuery field v) = 0 := by
  have hva : v.isArr = false := by cases v <;> simp_all [JVal.isScalar, JVal.isArr]
  simp [smartTermOrTermsQuery, hva, countKey, countKeyFields, countKeyList, hf,
    countKey_scalar _ _ hv]

theorem countKey_findQuery_some (k : String) (w : List (String × JVal))
    (h4 : ("bool" : String) ≠ k) (h5 : ("filter" : String) ≠ k) :
    countKey k (findQuery (some w)) =
      countKeyList k (w.map fun fv => whereEntryToFilter fv.1 fv.2) := by
  simp [findQuery, countKey, countKeyFields, countKeyList, h4, h5]

theorem countKeyList_map_one {β : Type} (k : String) (f : β → JVal) (w : List β)
    (h : ∀ b ∈ w, countKey k (f b) = 1) : countKeyList k (w.map f) = w.length := by
  induction w with
  | nil => rfl
  | cons b rest ih =>
    simp [countKeyList, h b (List.mem_cons_self b rest),
      ih fun x hx => h x (List.mem_cons_of_mem b hx), Nat.add_comm]

theorem countKeyList_map_zero {β : Type} (k : String) (f : β → JVal) (w : List β)
    (h : ∀ b ∈ w, countKey k (f b) = 0) : countKeyList k (w.map f) = 0 := by
  induction w with
  | nil => rfl
  | cons b rest ih =>
    simp [countKeyList, h b (List.mem_cons_self b rest),
      ih fun x hx => h x (List.mem_cons_of_mem b hx)]

theorem restrictPhase_map_fst (a : String) (ad : AttrDef) (values : List (String × JVal)) :
    (restrictPhase a ad values).map Prod.fst = values.map Prod.fst := by
  unfold restrictPhase
  rcases ad.restrictAttributes with _ | rf
  · rfl
  · rcases h : lookupKey a values with _ | v
    · rfl
    · by_cases ht : v.truthy <;> simp [ht, updateKey_map_fst]

theorem skipPhase_map_fst (a : String) (ad : AttrDef) (values : List (String × JVal)) :
    (skipPhase a ad values).map Prod.fst = values.map Prod.fst := by
  unfold skipPhase
  rcases ad.skipAttributes with _ | sk
  · rfl
  · rcases h : lookupKey a values with _ | v
    · rfl
    · by_cases ht : v.truthy <;> simp [ht, updateKey_map_fst]

theorem restrictAttrStep_map_fst (a : String) (ad : AttrDef) (values : List (String × JVal)) :
    (restrictAttrStep a ad values).map Prod.fst = values.map Prod.fst := by
  unfold restrictAttrStep
  by_cases h : ad.type = some "json" <;>
    simp [h, restrictPhase_map_fst, skipPhase_map_fst]

theorem restrictAttributes_map_fst (attrs : List (String × AttrDef))
    (values : List (String × JVal)) :
    (restrictAttributes attrs values).map Prod.fst = values.map Prod.fst := by
  induction attrs generalizing values with
  | nil => rfl
  | cons a rest ih =>
    show (restrictAttributes rest (restrictAttrStep a.1 a.2 values)).map Prod.fst = _
    rw [ih, restrictAttrStep_map_fst]

/-!  The claims. -/

/-- C1: for a `where` field whose dotted path has n ≥ 2 segments (with a
nonempty leading segment), the primary translator wraps the terminal
term/terms clause — built on the full field name — in exactly n-1 nested
clauses whose `path` values are the cumulative dot-joined prefixes of the
path, outer to inner. -/
theorem c1_nested_path_wrapping (field : String) (v : JVal) (p : String) (rest : List String)
    (hsplit : splitDots field = p :: rest) (hne : rest ≠ []) (hp : p ≠ "") :
    whereEntryToFilter field v =
      wrapNested (smartTermOrTermsQuery field v) (dotPrefixes ((p :: rest).dropLast)) ∧
    (dotPrefixes ((p :: rest).dropLast)).length = (p :: rest).length - 1 := by
  rcases List.exists_cons_of_ne_nil hne with ⟨q, rest', rfl⟩
  constructor
  · show (if (splitDots field).length = 1 then smartTermOrTermsQuery field v
      else
        match (splitDots field).dropLast with
        | [] => smartTermOrTermsQuery field v
        | p :: rest => nestedWrap "" (smartTermOrTermsQuery field v) p rest) = _
    rw [hsplit]
    rw [if_neg (by simp)]
    show nestedWrap "" (smartTermOrTermsQuery field v) p ((q :: rest').dropLast) = _
    rw [nestedWrap_eq_wrapNested, cumulative_eq_dotPrefixes _ _ hp]
    rfl
  · rw [dotPrefixes_length, List.length_dropLast]

/-- Witness for C1 at the field path `a.b.c`. -/
theorem c1_nested_path_wrapping_witness :
    whereEntryToFilter "a.b.c" (.str "v") =
      wrapNested (smartTermOrTermsQuery "a.b.c" (.str "v"))
        (dotPrefixes ((["a", "b", "c"] : List String).dropLast)) ∧
    (dotPrefixes ((["a", "b", "c"] : List String).dropLast)).length =
      (["a", "b", "c"] : List String).length - 1 :=
  c1_nested_path_wrapping "a.b.c" (.str "v") "a" ["b", "c"] rfl (by decide) (by decide)

/-- C2 (counterexample to the claim as stated): the secondary variant's
translator, given a `where` entry whose value is a list, produces no `terms`
clause — it produces a `term` clause carrying the list. -/
theorem c2_counterexample_secondary_list_gets_term :
    countKey "terms" (findQueryV2 (some [("tags", .arr [.str "a", .str "b"])])) = 0 ∧
    countKey "term" (findQueryV2 (some [("tags", .arr [.str "a", .str "b"])])) = 1 := by
  constructor <;> simp [findQueryV2, countKey, countKeyFields, countKeyList]

/-- C2 (amended): the primary translator's `smartTermOrTermsQuery` produces a
`terms` clause for a list value and a `term` clause for a scalar value; a
criteria with only scalar `where` values (on fields not themselves named
`term`/`terms`) yields exactly one `term` clause per field and no `terms`
clause.  The secondary variant's `find`, however, always produces a `term`
clause holding the raw value, even for lists. -/
theorem c2_term_terms_clauses :
    (∀ (field : String) (vs : List JVal),
      smartTermOrTermsQuery field (.arr vs) = .obj [("terms", .obj [(field, .arr vs)])]) ∧
    (∀ (field : String) (v : JVal), v.isScalar = true →
      smartTermOrTermsQuery field v = .obj [("term", .obj [(field, v)])]) ∧
    (∀ w : List (String × JVal),
      (∀ fv ∈ w, fv.2.isScalar = true ∧ fv.1 ≠ "term" ∧ fv.1 ≠ "terms") →
      countKey "term" (findQuery (some w)) = w.length ∧
      countKey "terms" (findQuery (some w)) = 0) ∧
    (∀ w : List (String × JVal),
      findQueryV2 (some w) =
        .obj [("bool", .obj [("filter",
          .arr (w.map fun fv => .obj [("term", .obj [(fv.1, fv.2)])]))])]) := by
  refine ⟨fun field vs => rfl, ?_, ?_, fun w => rfl⟩
  · intro field v hv
    have hva : v.isArr = false := by cases v <;> simp_all [JVal.isScalar, JVal.isArr]
    simp [smartTermOrTermsQuery, hva]
  · intro w hw
    constructor
    · rw [countKey_findQuery_some _ _ (by decide) (by decide)]
      refine countKeyList_map_one _ _ _ fun fv hfv => ?_
      rw [countKey_whereEntry _ _ _ (by decide) (by decide) (by decide) (by decide) (by decide)]
      exact countKey_smart_term_one _ _ (hw fv hfv).1 (hw fv hfv).2.1
    · rw [countKey_findQuery_some _ _ (by decide) (by decide)]
      refine countKeyList_map_zero _ _ _ fun fv hfv => ?_
      rw [countKey_whereEntry _ _ _ (by decide) (by decide) (by decide) (by decide) (by decide)]
      exact countKey_smart_terms_zero _ _ (hw fv hfv).1 (hw fv hfv).2.2

/-- Witness for C2 on a one-entry scalar criteria. -/
theorem c2_term_terms_clauses_witness :
    countKey "term" (findQuery (some [("name", .str "x")])) = 1 ∧
    countKey "terms" (findQuery (some [("name", .str "x")])) = 0 := by
  have h := c2_term_terms_clauses.2.2.1 [("name", JVal.str "x")] (by
    intro fv hfv
    rw [List.mem_singleton] at hfv
    subst hfv
    exact ⟨rfl, by decide, by decide⟩)
  simpa using h

/-- C7 (counterexample to the claim as stated): the secondary variant's `find`
never produces a `match_all` query; with no `where` clause it produces a
`bool` query with an empty filter array. -/
theorem c7_counterexample_secondary_no_match_all :
    findQueryV2 none = .obj [("bool", .obj [("filter", .arr [])])] ∧
    countKey "match_all" (findQueryV2 none) = 0 := by
  refine ⟨rfl, ?_⟩
  simp [findQueryV2, countKey, countKeyFields, countKeyList]

/-- C7 (amended): the primary `find` produces a `match_all` query document
with no bool/filter clause when the criteria has no `where`; the secondary
variant instead always produces a bool/filter query, whose filter array is
empty when `where` is absent. -/
theorem c7_match_all_when_no_where :
    findQuery none = .obj [("match_all", .obj [])] ∧
    countKey "bool" (findQuery none) = 0 ∧
    countKey "filter" (findQuery none) = 0 ∧
    findQueryV2 none = .obj [("bool", .obj [("filter", .arr [])])] := by
  refine ⟨rfl, ?_, ?_, rfl⟩ <;>
    simp [findQuery, countKey, countKeyFields, countKeyList]

/-- C8: on a search response whose hit total is zero, the primary `getHits`
passes an empty record list to the callback without processing the hits; the
secondary variant's `getHits` instead returns early without ever invoking the
callback (modelled as `none`), which is the reported bug. -/
theorem c8_zero_hits_short_circuit (hits : List EsHit) :
    getHits ⟨0, hits⟩ = [] ∧
    getHitsV2 ⟨0, hits⟩ = none ∧
    getHitsV2 ⟨0, [⟨"1", [("name", .str "x")]⟩]⟩ = none :=
  ⟨rfl, rfl, rfl⟩

/-- C3: the result of `mget` has one element per requested identifier, in
request order; position i holds the record when the store has a document for
the i-th identifier and `false` otherwise.  The last conjunct is the
specification's example: requesting 1, 2, 3 when only 2 exists yields
`[false, record, false]`. -/
theorem c3_mget_order_and_markers (store : String → Option (List (String × JVal)))
    (ids : List String) (i : Nat) :
    (mgetResults store ids).length = ids.length ∧
    (mgetResults store ids)[i]? = (ids[i]?).map (fun pk =>
      match store pk with
      | some src => hitToModel ⟨pk, src⟩
      | none => JVal.bool false) ∧
    mgetResults (fun pk => if pk = "2" then some [("name", .str "two")] else none)
        ["1", "2", "3"] =
      [.bool false, .obj [("name", .str "two"), ("_id", .str "2")], .bool false] := by
  refine ⟨?_, ?_, rfl⟩
  · simp [mgetResults, getFound, clientMget]
  · simp only [mgetResults, getFound, clientMget, List.map_map, List.getElem?_map]
    cases h : ids[i]? with
    | none => rfl
    | some pk =>
      cases hs : store pk <;> simp [hs, Function.comp, EsDoc.toHit, hitToModel]

/-- C4: the primary `restrictAttributes` keeps, for a json-typed attribute
with a restrict list, exactly the sub-keys in the restrict list (element-wise
on array values), then independently deletes the sub-keys in the skip list,
and returns the values object with all attribute keys preserved; the
specification's example holds.  The secondary variant's restrict loop,
however, deletes a key whenever it differs from ANY entry of the restrict
list, so with restrict list x, y it deletes both x and y from the value —
contradicting its own comment ("remove attributes that are not included") —
while the primary variant keeps both. -/
theorem c4_restrict_attributes_behaviour :
    (∀ (a : String) (rf : List String) (kvs : List (String × JVal)),
      restrictAttributes [(a, ⟨some "json", some rf, none⟩)] [(a, .obj kvs)] =
        [(a, .obj (kvs.filter fun kv => rf.contains kv.1))]) ∧
    (∀ (a : String) (rf sk : List String) (kvs : List (String × JVal)),
      restrictAttributes [(a, ⟨some "json", some rf, some sk⟩)] [(a, .obj kvs)] =
        [(a, .obj ((kvs.filter fun kv => rf.contains kv.1).filter fun kv => !sk.contains kv.1))]) ∧
    (∀ (a : String) (rf : List String) (elems : List JVal),
      restrictAttributes [(a, ⟨some "json", some rf, none⟩)] [(a, .arr elems)] =
        [(a, .arr (elems.map (restrictObjectAttributes rf)))]) ∧
    (∀ (attrs : List (String × AttrDef)) (values : List (String × JVal)),
      (restrictAttributes attrs values).map Prod.fst = values.map Prod.fst) ∧
    restrictAttributes [("a", ⟨some "json", some ["x"], none⟩)]
        [("a", .obj [("x", .num 1), ("y", .num 2)])] = [("a", .obj [("x", .num 1)])] ∧
    restrictAttributesV2 [("a", ⟨some "json", some ["x", "y"], none⟩)]
        [("a", .obj [("x", .num 1), ("y", .num 2)])] = some [("a", .obj [])] ∧
    restrictAttributes [("a", ⟨some "json", some ["x", "y"], none⟩)]
        [("a", .obj [("x", .num 1), ("y", .num 2)])] =
      [("a", .obj [("x", .num 1), ("y", .num 2)])] := by
  refine ⟨?_, ?_, ?_, restrictAttributes_map_fst, by rfl, by rfl, by rfl⟩
  · intro a rf kvs
    simp [restrictAttributes, restrictAttrStep, restrictPhase, skipPhase, lookupKey,
      updateKey, restrictValue, restrictObjectAttributes, JVal.truthy]
  · intro a rf sk kvs
    simp [restrictAttributes, restrictAttrStep, restrictPhase, skipPhase, lookupKey,
      updateKey, restrictValue, restrictObjectAttributes, skipKeys, JVal.truthy]
  · intro a rf elems
    simp [restrictAttributes, restrictAttrStep, restrictPhase, skipPhase, lookupKey,
      updateKey, restrictValue, JVal.truthy]

/-- C5: `registerConnection` fails immediately, leaving the registry (and so
any existing registration, with its config, collections and client handle)
untouched, when the connection identity is missing or already registered. -/
theorem c5_register_connection_errors (reg : Registry) (connection : ConnConfig)
    (collections : Option (List (String × CollectionMeta)))
    (openResult : Except EsError EsClient) :
    (connection.identity = none →
      registerConnection reg connection collections openResult = (reg, .errMissingIdentity)) ∧
    (∀ ident, connection.identity = some ident → (lookupKey ident reg).isSome = true →
      registerConnection reg connection collections openResult =
        (reg, .errAlreadyRegistered)) := by
  constructor
  · intro h
    simp [registerConnection, h]
  · intro ident h hs
    simp [registerConnection, h, hs]

/-- Witness for C5: re-registering the identity c1 fails and leaves the
registry as it was. -/
theorem c5_register_connection_errors_witness :
    registerConnection [("c1", ⟨⟨some "c1", none⟩, [], none⟩)] ⟨some "c1", none⟩ none
        (.ok ⟨0⟩) =
      ([("c1", ⟨⟨some "c1", none⟩, [], none⟩)], .errAlreadyRegistered) :=
  (c5_register_connection_errors _ _ _ _).2 "c1" rfl rfl

/-- C6: when the criteria's primary-key value is loosely undefined — for
`update` under the model's primary-key field, for `destroy` under the literal
`primaryKey` key — the operation reports the error with an empty client-call
trace: no update, get or delete request is issued. -/
theorem c6_missing_pk_no_client_call
    (indexName typeName primaryKeyField : String) (attributes : List (String × AttrDef))
    (whereU whereD : List (String × JVal)) (values : List (String × JVal))
    (updateResp : Except EsError EsWriteResp) (getResp : Except EsError EsHit)
    (deleteResp : Except EsError Unit) :
    ((lookupKey primaryKeyField whereU = none ∨ lookupKey primaryKeyField whereU = some .null) →
      update indexName typeName primaryKeyField attributes whereU values updateResp getResp =
        ([], .error .missingPrimaryKey)) ∧
    ((lookupKey "primaryKey" whereD = none ∨ lookupKey "primaryKey" whereD = some .null) →
      destroy indexName typeName whereD deleteResp = ([], .error .missingPrimaryKey)) := by
  constructor
  · rintro (h | h) <;> simp [update, h]
  · rintro (h | h) <;> simp [destroy, h]

/-- Witness for C6: an update whose criteria is empty and a destroy whose
criteria has no `primaryKey` key both error with no client call. -/
theorem c6_missing_pk_no_client_call_witness :
    update "books" "es" "id" [] [] [("title", .str "t")] (.error ⟨"e"⟩) (.error ⟨"e"⟩) =
      ([], .error .missingPrimaryKey) ∧
    destroy "books" "es" [("id", .num 1)] (.ok ()) = ([], .error .missingPrimaryKey) :=
  ⟨(c6_missing_pk_no_client_call "books" "es" "id" [] [] [("id", .num 1)]
      [("title", .str "t")] (.error ⟨"e"⟩) (.error ⟨"e"⟩) (.ok ())).1 (Or.inl rfl),
   (c6_missing_pk_no_client_call "books" "es" "id" [] [] [("id", .num 1)]
      [("title", .str "t")] (.error ⟨"e"⟩) (.error ⟨"e"⟩) (.ok ())).2 (Or.inl rfl)⟩

/-- C9: the index name is the explicit index argument when defined, otherwise
the registered connection's configured index when defined, otherwise the
collection name. -/
theorem c9_index_resolution (reg : Registry) (connectionName collectionName : String)
    (entry : RegEntry) :
    (∀ i, getIndex reg connectionName collectionName (some i) = some i) ∧
    (lookupKey connectionName reg = some entry →
      (∀ configIndex, entry.config.index = some configIndex →
        getIndex reg connectionName collectionName none = some configIndex) ∧
      (entry.config.index = none →
        getIndex reg connectionName collectionName none = some collectionName)) := by
  refine ⟨fun i => rfl, fun hreg => ⟨?_, ?_⟩⟩
  · intro configIndex hconf
    simp [getIndex, hreg, hconf]
  · intro hconf
    simp [getIndex, hreg, hconf]

/-- Witness for C9 with a one-entry registry whose config carries an index. -/
theorem c9_index_resolution_witness :
    getIndex [("c1", ⟨⟨some "c1", some "idx"⟩, [], none⟩)] "c1" "books" none = some "idx" :=
  ((c9_index_resolution [("c1", ⟨⟨some "c1", some "idx"⟩, [], none⟩)] "c1" "books"
      ⟨⟨some "c1", some "idx"⟩, [], none⟩).2 rfl).1 "idx" rfl

/-- C10: when opening the client fails during `registerConnection`, the
callback receives the error, yet the entry stored just before (with an empty
connection slot) stays in the registry, so a second registration of the same
identity fails as a duplicate and changes nothing. -/
theorem c10_failed_open_keeps_entry (reg : Registry) (connection : ConnConfig)
    (collections : Option (List (String × CollectionMeta))) (e : EsError) (ident : String)
    (openResult2 : Except EsError EsClient)
    (hid : connection.identity = some ident) (hnew : lookupKey ident reg = none) :
    (registerConnection reg connection collections (.error e)).2 = .errClient e ∧
    lookupKey ident (registerConnection reg connection collections (.error e)).1 =
      some ⟨connection, collections.getD [], none⟩ ∧
    registerConnection (registerConnection reg connection collections (.error e)).1
        connection collections openResult2 =
      ((registerConnection reg connection collections (.error e)).1,
        .errAlreadyRegistered) := by
  have hfst : (registerConnection reg connection collections (.error e)).1 =
      setKey ident ⟨connection, collections.getD [], none⟩ reg := by
    simp [registerConnection, hid, hnew, newConnection]
  have hlook : lookupKey ident (registerConnection reg connection collections (.error e)).1 =
      some ⟨connection, collections.getD [], none⟩ := by
    rw [hfst]
    exact lookupKey_setKey_self _ _ _
  refine ⟨?_, hlook, ?_⟩
  · simp [registerConnection, hid, hnew, newConnection]
  · rw [hfst]
    have hs : (lookupKey ident (setKey ident
        (⟨connection, collections.getD [], none⟩ : RegEntry) reg)).isSome = true := by
      rw [lookupKey_setKey_self]
      rfl
    simp [registerConnection, hid, hs]

/-- Witness for C10 on an initially empty registry. -/
theorem c10_failed_open_keeps_entry_witness :
    (registerConnection [] ⟨some "c1", none⟩ none (.error ⟨"boom"⟩)).2 =
      .errClient ⟨"boom"⟩ ∧
    lookupKey "c1" (registerConnection [] ⟨some "c1", none⟩ none (.error ⟨"boom"⟩)).1 =
      some ⟨⟨some "c1", none⟩, [], none⟩ ∧
    registerConnection (registerConnection [] ⟨some "c1", none⟩ none (.error ⟨"boom"⟩)).1
        ⟨some "c1", none⟩ none (.ok ⟨0⟩) =
      ((registerConnection [] ⟨some "c1", none⟩ none (.error ⟨"boom"⟩)).1,
        .errAlreadyRegistered) :=
  c10_failed_open_keeps_entry [] ⟨some "c1", none⟩ none ⟨"boom"⟩ "c1" (.ok ⟨0⟩) rfl rfl

end SailsES
